import Mathlib

/-!
# Verification of the TooLoo.ai vector-store core (`src/mlops/vectordb/connector.py`)

Shallow embedding of `VectorDBConnector`: the local SQLite-backed store
(rows keyed by `(collection, id)`, vectors serialized as float32 blobs),
the brute-force cosine-similarity query, and the provider/simulation
dispatch of `_initialize_client`, `upsert` and `query`.

Modelling conventions:
* Numeric vector entries are modelled as exact rationals (`ℚ`); the
  float32/float64 rounding of the source is outside the embedding.
* A cosine-similarity score `np.dot(q, v) / (norm(q) * norm(v))` is kept in
  exact form as the pair `Score = (dot, n2)` with `n2 = (Σ qᵢ²)·(Σ vᵢ²)`,
  i.e. the square of the denominator; the real-valued score is
  `dot / sqrt n2`.  `n2 = 0` is exactly the case where the source divides by
  zero and produces an IEEE NaN.  Comparison of two scores (`Score.flt`)
  mirrors float `<` on the real scores: NaN compares false against
  everything, and otherwise `d₁/√n₁ < d₂/√n₂` is decided exactly via the
  strictly monotone map `r ↦ sign r · r²` (`Score.skey`).
* `list.sort(key=..., reverse=True)` in CPython is a stable descending
  sort; it is modelled by `List.insertionSort` with the relation
  "not strictly below", which is the stable descending sort for the same
  comparator.  (When NaN keys are present the source's ordering among the
  affected entries is implementation-defined; theorems below only use
  permutation/membership facts in that case.)
* The SQLite table is modelled as a list of rows in scan order;
  `INSERT OR REPLACE` keyed by `(collection, id)` replaces the matching
  row in place, or appends.  (SQLite's physical scan order is not
  specified by the source; no theorem below depends on the scan order of
  distinct keys beyond stability of the sort.)
* `python`-level side conditions are modelled faithfully:
  `np.dot` on 1-D arrays of different lengths raises `ValueError`
  ("shapes not aligned"), so the query loop is an `Except`-computation;
  Python slicing `results[:top_k]` keeps its negative-index semantics
  (`pySlice`); `x or y` on optional strings uses Python truthiness
  (`pyOr` / `pyTruthy`); the Python `bool` return value `True` is, as a
  Python integer, `1` (`pyBoolToInt`).
-/

namespace VectorDB

/-- A row of the SQLite table `vectors (collection, id, vector, metadata)`.
The `vector` blob is kept as the list of (float32) values it encodes; the
byte-level encoding is modelled separately by `tobytes` / `frombuffer`. -/
structure Row where
  collection : String
  id : String
  values : List ℚ
  metadata : String
deriving DecidableEq

/-- One element of the `vectors` argument of `upsert`: a dict with
`id`, `values` and optional `metadata` (a JSON text; `vec.get('metadata', {})`
defaults to the empty object). -/
structure VecInput where
  id : String
  values : List ℚ
  metadata : Option String
deriving DecidableEq

/-- `json.dumps(vec.get('metadata', {}))`: the stored metadata text. -/
def dumpsMetadata (m : Option String) : String := m.getD "\x7b\x7d"

/-- Exact representation of the cosine-similarity float
`np.dot(q, v) / (np.linalg.norm(q) * np.linalg.norm(v))`:
`dot = Σ qᵢ·vᵢ` and `n2 = (Σ qᵢ²)·(Σ vᵢ²)`; the real score is `dot / √n2`,
and `n2 = 0` is the division-by-zero (NaN) case of the source. -/
structure Score where
  dot : ℚ
  n2 : ℚ
deriving DecidableEq

/-- `np.dot` of two equal-length 1-D vectors. -/
def dotList (q v : List ℚ) : ℚ := (List.zipWith (· * ·) q v).sum

/-- Squared Euclidean norm `np.linalg.norm(v) ** 2`. -/
def sumSq (v : List ℚ) : ℚ := (v.map (fun x => x * x)).sum

/-- The score is the IEEE NaN produced by `0/0` exactly when `n2 = 0`. -/
def Score.isNaN (s : Score) : Prop := s.n2 = 0

instance (s : Score) : Decidable s.isNaN := inferInstanceAs (Decidable (s.n2 = 0))

/-- Strictly monotone rational key for a non-NaN score: the image of the
real score `d/√n2` under `r ↦ sign r · r²`, so that comparing keys is
exactly comparing real scores. -/
def Score.skey (s : Score) : ℚ :=
  if s.dot < 0 then -(s.dot * s.dot / s.n2) else s.dot * s.dot / s.n2

/-- Float `<` on two scores, as Python's sort compares the `score` keys:
false whenever either side is NaN, otherwise the exact real comparison. -/
def Score.flt (s t : Score) : Prop :=
  s.n2 ≠ 0 ∧ t.n2 ≠ 0 ∧ s.skey < t.skey

instance (s t : Score) : Decidable (s.flt t) :=
  inferInstanceAs (Decidable (s.n2 ≠ 0 ∧ t.n2 ≠ 0 ∧ s.skey < t.skey))

/-- The score, as a real number, equals the rational `r`
(`dot / √n2 = r`, expressed without square roots). -/
def Score.eqRat (s : Score) (r : ℚ) : Prop :=
  s.n2 ≠ 0 ∧ s.dot * s.dot = r * r * s.n2 ∧ (s.dot < 0 ↔ r < 0)

instance (s : Score) (r : ℚ) : Decidable (s.eqRat r) :=
  inferInstanceAs (Decidable (s.n2 ≠ 0 ∧ s.dot * s.dot = r * r * s.n2 ∧ (s.dot < 0 ↔ r < 0)))

instance {ε α : Type} [DecidableEq ε] [DecidableEq α] : DecidableEq (Except ε α) := fun a b =>
  match a, b with
  | Except.ok x, Except.ok y =>
    if h : x = y then isTrue (by rw [h]) else isFalse (by intro hc; cases hc; exact h rfl)
  | Except.error x, Except.error y =>
    if h : x = y then isTrue (by rw [h]) else isFalse (by intro hc; cases hc; exact h rfl)
  | Except.ok _, Except.error _ => isFalse (by intro hc; cases hc)
  | Except.error _, Except.ok _ => isFalse (by intro hc; cases hc)

/-- One element of the list returned by `query`:
`{"id": ..., "score": float(score), "metadata": ...}`. -/
structure QueryResult where
  id : String
  score : Score
  metadata : String
deriving DecidableEq

/-- `x` may be placed before `y` in the descending sort: `x`'s score is not
strictly below `y`'s.  `results.sort(key=..., reverse=True)` is the stable
sort for this relation. -/
def resBefore (x y : QueryResult) : Prop := ¬ Score.flt x.score y.score

instance : DecidableRel resBefore := fun x y =>
  inferInstanceAs (Decidable (¬ Score.flt x.score y.score))

/-- The stable descending sort `results.sort(key=lambda x: x['score'], reverse=True)`. -/
def sortDesc (l : List QueryResult) : List QueryResult :=
  List.insertionSort resBefore l

/-- Python slicing `l[:k]`, including the negative-`k` clamp semantics:
`l[:k]` for `k < 0` is the first `max(0, len(l) + k)` elements. -/
def pySlice {α : Type} (l : List α) (k : ℤ) : List α :=
  if 0 ≤ k then l.take k.toNat else l.take (l.length - (-k).toNat)

/-- `SELECT id, vector, metadata FROM vectors WHERE collection=?`. -/
def scan (rows : List Row) (coll : String) : List Row :=
  rows.filter (fun r => decide (r.collection = coll))

/-- `INSERT OR REPLACE` keyed by the primary key `(collection, id)`. -/
def putRow (rows : List Row) (r : Row) : List Row :=
  match rows with
  | [] => [r]
  | x :: xs =>
    if x.collection = r.collection ∧ x.id = r.id then r :: xs
    else x :: putRow xs r

/-- The local branch of `upsert`: one `INSERT OR REPLACE` per input record,
serializing values to a float32 blob and metadata to JSON. -/
def upsertLocal (rows : List Row) (coll : String) (vecs : List VecInput) : List Row :=
  vecs.foldl (fun acc v => putRow acc ⟨coll, v.id, v.values, dumpsMetadata v.metadata⟩) rows

/-- The body of the query loop for one row: `np.dot` raises `ValueError`
("shapes not aligned") when the 1-D lengths differ, otherwise the score is
computed (possibly NaN) and the result dict appended. -/
def scoreRow (q : List ℚ) (r : Row) : Except String QueryResult :=
  if r.values.length = q.length then
    Except.ok ⟨r.id, ⟨dotList q r.values, sumSq q * sumSq r.values⟩, r.metadata⟩
  else Except.error "shapes not aligned"

/-- The query loop over all scanned rows: the first dimension mismatch
aborts the whole query (uncaught `ValueError`). -/
def scoreAll (q : List ℚ) : List Row → Except String (List QueryResult)
  | [] => Except.ok []
  | r :: rs => do
    let x ← scoreRow q r
    let xs ← scoreAll q rs
    pure (x :: xs)

/-- The local branch of `query`: scan the collection, score every row,
sort by score descending (stable), return `results[:top_k]`. -/
def queryLocal (rows : List Row) (coll : String) (q : List ℚ) (k : ℤ) :
    Except String (List QueryResult) :=
  (scoreAll q (scan rows coll)).map (fun res => pySlice (sortDesc res) k)

/-! ## Provider dispatch (`_initialize_client`, facade `upsert`/`query`) -/

/-- The `config` dict of the constructor (recognized keys). -/
structure Config where
  api_key : Option String
  url : Option String
  db_path : Option String
deriving DecidableEq

/-- The process environment, as read by `os.getenv("PINECONE_API_KEY")`. -/
structure Env where
  PINECONE_API_KEY : Option String
deriving DecidableEq

/-- Python truthiness of an optional string (`None` and `""` are falsy). -/
def pyTruthy : Option String → Bool
  | none => false
  | some s => s != ""

/-- Python `a or b` on optional strings. -/
def pyOr (a b : Option String) : Option String :=
  if pyTruthy a then a else b

/-- The value stored in `self.client`. -/
inductive Client where
  | sqliteConn
  | pineconeSimulated
  | weaviateSimulated
  | pineconeReal (api_key : String)
  | weaviateReal (url : String) (api_key : Option String)
deriving DecidableEq

/-- `_initialize_client`: provider dispatch with simulation fallback when a
client library is not importable or required configuration is absent
(falsy).  Construction never fails. -/
def initializeClient (provider : String) (config : Config) (env : Env)
    (pineconeInstalled weaviateInstalled : Bool) : Client :=
  if provider = "pinecone" then
    if pineconeInstalled then
      let api_key := pyOr config.api_key env.PINECONE_API_KEY
      if pyTruthy api_key then Client.pineconeReal (api_key.getD "")
      else Client.pineconeSimulated
    else Client.pineconeSimulated
  else if provider = "weaviate" then
    if weaviateInstalled then
      if pyTruthy config.url then Client.weaviateReal (config.url.getD "") config.api_key
      else Client.weaviateSimulated
    else Client.weaviateSimulated
  else Client.sqliteConn

/-- The facade object: `self.provider` and `self.client` fixed at
construction. -/
structure VectorDBConnector where
  provider : String
  client : Client
deriving DecidableEq

/-- `VectorDBConnector.__init__`. -/
def mkConnector (provider : String) (config : Config) (env : Env)
    (pineconeInstalled weaviateInstalled : Bool) : VectorDBConnector :=
  ⟨provider, initializeClient provider config env pineconeInstalled weaviateInstalled⟩

/-- Python's `bool` is an `int` subtype: `True` is the integer `1`. -/
def pyBoolToInt (b : Bool) : ℤ := if b then 1 else 0

/-- Facade `upsert`.  `db` is the state of the local SQLite file; the real
remote branch performs only a network call (no local state), and every
branch returns `True`. -/
def VectorDBConnector.upsert (self : VectorDBConnector) (db : List Row)
    (collection_name : String) (vectors : List VecInput) : List Row × Bool :=
  if self.provider = "local" then (upsertLocal db collection_name vectors, true)
  else if self.provider = "pinecone" ∧ self.client ≠ Client.pineconeSimulated then
    (db, true)
  else (db, true)

/-- The fixed placeholder result of a simulated `query`. -/
def simulatedMatch : QueryResult :=
  ⟨"simulated_match", ⟨19/20, 1⟩, "\x7b\"text\": \"Simulated result\"\x7d"⟩

/-- Facade `query`.  `remote` is the (unmodelled) network call of a real
remote client; the returned first component is the local SQLite state after
the call. -/
def VectorDBConnector.query (self : VectorDBConnector) (db : List Row)
    (remote : String → List ℚ → ℤ → List QueryResult)
    (collection_name : String) (vector : List ℚ) (top_k : ℤ) :
    List Row × Except String (List QueryResult) :=
  if self.provider = "local" then (db, queryLocal db collection_name vector top_k)
  else if self.provider = "pinecone" ∧ self.client ≠ Client.pineconeSimulated then
    (db, Except.ok (remote collection_name vector top_k))
  else (db, Except.ok [simulatedMatch])

/-! ## Blob serialization (`np.array(..., dtype=np.float32).tobytes()` /
`np.frombuffer(..., dtype=np.float32)`)

A float32 value is represented by its 32-bit pattern (a natural number
below `2^32`); `tobytes` lays each word out as four little-endian bytes. -/

/-- Four little-endian bytes of one 32-bit word. -/
def word32ToBytesLE (w : ℕ) : List ℕ :=
  [w % 256, w / 256 % 256, w / 65536 % 256, w / 16777216 % 256]

/-- `np.array(values, dtype=np.float32).tobytes()` at the bit-pattern level. -/
def tobytes : List ℕ → List ℕ
  | [] => []
  | w :: ws => word32ToBytesLE w ++ tobytes ws

/-- `np.frombuffer(blob, dtype=np.float32)` at the bit-pattern level
(defined on buffers whose length is a multiple of 4, as produced by
`tobytes`). -/
def frombuffer : List ℕ → List ℕ
  | b0 :: b1 :: b2 :: b3 :: rest =>
    (b0 + 256 * b1 + 65536 * b2 + 16777216 * b3) :: frombuffer rest
  | _ => []

/-! ## Order-theoretic facts about score comparison and the sort -/

theorem Score.flt_asymm {s t : Score} (h : s.flt t) : ¬ t.flt s :=
  fun h' => lt_asymm h.2.2 h'.2.2

theorem resBefore_total (x y : QueryResult) : resBefore x y ∨ resBefore y x := by
  by_cases h : Score.flt x.score y.score
  · exact Or.inr (Score.flt_asymm h)
  · exact Or.inl h

theorem resBefore_trans_of_nonNaN {x y z : QueryResult}
    (hx : x.score.n2 ≠ 0) (hy : y.score.n2 ≠ 0) (hz : z.score.n2 ≠ 0)
    (hxy : resBefore x y) (hyz : resBefore y z) : resBefore x z := by
  intro hflt
  have h1 : ¬ x.score.skey < y.score.skey := fun hl => hxy ⟨hx, hy, hl⟩
  have h2 : ¬ y.score.skey < z.score.skey := fun hl => hyz ⟨hy, hz, hl⟩
  exact absurd hflt.2.2 (not_lt.mpr (le_trans (not_lt.mp h2) (not_lt.mp h1)))

theorem sorted_orderedInsert_of_nonNaN (x : QueryResult) (l : List QueryResult)
    (hx : x.score.n2 ≠ 0) (hl : ∀ y ∈ l, y.score.n2 ≠ 0)
    (h : l.Sorted resBefore) :
    (l.orderedInsert resBefore x).Sorted resBefore := by
  induction l with
  | nil => exact List.sorted_singleton x
  | cons b t ih =>
    have hb : b.score.n2 ≠ 0 := hl b (List.mem_cons_self b t)
    have ht : ∀ y ∈ t, y.score.n2 ≠ 0 := fun y hy => hl y (List.mem_cons_of_mem b hy)
    by_cases hr : resBefore x b
    · rw [List.orderedInsert, if_pos hr, List.sorted_cons]
      refine ⟨fun c hc => ?_, h⟩
      rcases List.mem_cons.mp hc with rfl | hct
      · exact hr
      · exact resBefore_trans_of_nonNaN hx hb (ht c hct) hr
          (List.rel_of_sorted_cons h c hct)
    · rw [List.orderedInsert, if_neg hr, List.sorted_cons]
      refine ⟨fun c hc => ?_, ih ht h.of_cons⟩
      rcases (List.mem_orderedInsert resBefore).mp hc with rfl | hct
      · exact (resBefore_total c b).resolve_left hr
      · exact List.rel_of_sorted_cons h c hct

theorem sorted_sortDesc_of_nonNaN (l : List QueryResult)
    (hl : ∀ y ∈ l, y.score.n2 ≠ 0) : (sortDesc l).Sorted resBefore := by
  induction l with
  | nil => exact List.sorted_nil
  | cons a t ih =>
    have ha : a.score.n2 ≠ 0 := hl a (List.mem_cons_self a t)
    have ht : ∀ y ∈ t, y.score.n2 ≠ 0 := fun y hy => hl y (List.mem_cons_of_mem a hy)
    exact sorted_orderedInsert_of_nonNaN a _ ha
      (fun y hy => ht y ((List.mem_insertionSort resBefore).mp hy)) (ih ht)

/-! ## Evaluation facts about the query pipeline -/

/-- The scored entry built from one row. -/
def mkResult (q : List ℚ) (r : Row) : QueryResult :=
  ⟨r.id, ⟨dotList q r.values, sumSq q * sumSq r.values⟩, r.metadata⟩

theorem scoreAll_ok_of_dims (q : List ℚ) (rows : List Row)
    (h : ∀ r ∈ rows, r.values.length = q.length) :
    scoreAll q rows = Except.ok (rows.map (mkResult q)) := by
  induction rows with
  | nil => rfl
  | cons r rs ih =>
    have hr : r.values.length = q.length := h r (List.mem_cons_self r rs)
    have hrs := ih (fun x hx => h x (List.mem_cons_of_mem r hx))
    simp [scoreAll, scoreRow, hr, hrs, mkResult, bind, Except.bind, pure, Except.pure]

theorem scoreAll_error_of_mismatch (q : List ℚ) (rows : List Row)
    (h : ∃ r ∈ rows, r.values.length ≠ q.length) :
    scoreAll q rows = Except.error "shapes not aligned" := by
  induction rows with
  | nil => simp at h
  | cons r rs ih =>
    by_cases hr : r.values.length = q.length
    · have : ∃ x ∈ rs, x.values.length ≠ q.length := by
        rcases h with ⟨x, hx, hlen⟩
        rcases List.mem_cons.mp hx with rfl | hxs
        · exact absurd hr hlen
        · exact ⟨x, hxs, hlen⟩
      simp [scoreAll, scoreRow, hr, ih this, bind, Except.bind]
    · simp [scoreAll, scoreRow, hr, bind, Except.bind]

theorem scan_eq_nil_of_absent (rows : List Row) (coll : String)
    (h : ∀ r ∈ rows, r.collection ≠ coll) : scan rows coll = [] := by
  simp only [scan, List.filter_eq_nil_iff]
  intro r hr
  simp [h r hr]

/-! ## Store-level facts about `INSERT OR REPLACE` -/

/-- The primary key of a row. -/
def rowKey (r : Row) : String × String := (r.collection, r.id)

/-- The table invariant maintained by the primary key: no two rows share a
`(collection, id)`. -/
def nodupKeys (rows : List Row) : Prop := (rows.map rowKey).Nodup

theorem mem_putRow_self (rows : List Row) (r : Row) : r ∈ putRow rows r := by
  induction rows with
  | nil => exact List.mem_singleton.mpr rfl
  | cons x xs ih =>
    rw [putRow]
    split
    · exact List.mem_cons_self r xs
    · exact List.mem_cons_of_mem x ih

theorem mem_of_mem_putRow {rows : List Row} {r x : Row} (hx : x ∈ putRow rows r) :
    x = r ∨ x ∈ rows := by
  induction rows with
  | nil => simpa [putRow] using hx
  | cons y ys ih =>
    rw [putRow] at hx
    split at hx
    · rcases List.mem_cons.mp hx with rfl | hxs
      · exact Or.inl rfl
      · exact Or.inr (List.mem_cons_of_mem y hxs)
    · rcases List.mem_cons.mp hx with h1 | hxs
      · exact Or.inr (List.mem_cons.mpr (Or.inl h1))
      · rcases ih hxs with h | h
        · exact Or.inl h
        · exact Or.inr (List.mem_cons_of_mem y h)

theorem map_collection_putRow_of_mem (rows : List Row) (r : Row)
    (h : ∃ x ∈ rows, rowKey x = rowKey r) :
    (putRow rows r).map (fun x => x.collection) = rows.map (fun x => x.collection) := by
  induction rows with
  | nil => simp at h
  | cons y ys ih =>
    rw [putRow]
    split
    · rename_i hmatch
      simp [hmatch.1]
    · rename_i hmatch
      rcases h with ⟨x, hx, hkx⟩
      rcases List.mem_cons.mp hx with rfl | hxs
      · exact absurd ⟨congrArg Prod.fst hkx, congrArg Prod.snd hkx⟩ hmatch
      · simp [ih ⟨x, hxs, hkx⟩]

theorem rowKey_mem_of_mem_putRow {rows : List Row} {r x : Row} (hx : x ∈ putRow rows r) :
    rowKey x = rowKey r ∨ rowKey x ∈ rows.map rowKey := by
  rcases mem_of_mem_putRow hx with rfl | h
  · exact Or.inl rfl
  · exact Or.inr (List.mem_map_of_mem rowKey h)

theorem nodupKeys_putRow (rows : List Row) (r : Row) (h : nodupKeys rows) :
    nodupKeys (putRow rows r) := by
  induction rows with
  | nil => simp [putRow, nodupKeys]
  | cons y ys ih =>
    rw [nodupKeys, List.map_cons, List.nodup_cons] at h
    rw [putRow]
    split
    · rename_i hmatch
      rw [nodupKeys, List.map_cons, List.nodup_cons]
      have hk : rowKey y = rowKey r := by
        simp [rowKey, hmatch.1, hmatch.2]
      exact ⟨hk ▸ h.1, h.2⟩
    · rename_i hmatch
      rw [nodupKeys, List.map_cons, List.nodup_cons]
      refine ⟨fun hmem => ?_, ih h.2⟩
      rcases List.mem_map.mp hmem with ⟨x, hx, hkx⟩
      rcases mem_of_mem_putRow hx with rfl | hxs
      · exact hmatch ⟨(congrArg Prod.fst hkx).symm, (congrArg Prod.snd hkx).symm⟩
      · exact h.1 (hkx ▸ List.mem_map_of_mem rowKey hxs)

theorem eq_of_mem_putRow_key {rows : List Row} {r x : Row}
    (hnd : nodupKeys rows) (hx : x ∈ putRow rows r) (hk : rowKey x = rowKey r) : x = r := by
  induction rows with
  | nil => simpa [putRow] using hx
  | cons y ys ih =>
    rw [nodupKeys, List.map_cons, List.nodup_cons] at hnd
    rw [putRow] at hx
    split at hx
    · rename_i hmatch
      rcases List.mem_cons.mp hx with rfl | hxs
      · rfl
      · have hky : rowKey y = rowKey r := by simp [rowKey, hmatch.1, hmatch.2]
        exact absurd ((hk.trans hky.symm) ▸ List.mem_map_of_mem rowKey hxs) hnd.1
    · rename_i hmatch
      rcases List.mem_cons.mp hx with rfl | hxs
      · exact absurd ⟨congrArg Prod.fst hk, congrArg Prod.snd hk⟩ hmatch
      · exact ih hnd.2 hxs

theorem length_scan_eq_count (rows : List Row) (coll : String) :
    (scan rows coll).length = (rows.map (fun x => x.collection)).count coll := by
  induction rows with
  | nil => rfl
  | cons r rs ih =>
    by_cases h : r.collection = coll
    · simp [scan, List.filter_cons, h, List.count_cons, ih]
      simpa [scan] using ih
    · simp [scan, List.filter_cons, h, List.count_cons, Ne.symm h]
      simpa [scan] using ih

/-! ## Concrete fixtures used by witnesses and counterexamples -/

/-- An empty `config` dict. -/
def cfgNone : Config := ⟨none, none, none⟩

/-- An environment without `PINECONE_API_KEY`. -/
def envNone : Env := ⟨none⟩

/-- A connector constructed with the default provider `"local"`. -/
def connLocal : VectorDBConnector := mkConnector "local" cfgNone envNone true true

/-- Store ids `a, b, c` with vectors `[1,0,0]`, `[0,1,0]`, `[1,0,0]`. -/
def dbRank : List Row :=
  (connLocal.upsert [] "col"
    [⟨"a", [1, 0, 0], none⟩, ⟨"b", [0, 1, 0], none⟩, ⟨"c", [1, 0, 0], none⟩]).1

/-- Store one record of dimension 3. -/
def dbMismatch : List Row := (connLocal.upsert [] "c" [⟨"r", [1, 2, 3], none⟩]).1

/-- Store a zero-magnitude record next to a unit one. -/
def dbZero : List Row :=
  (connLocal.upsert [] "z" [⟨"r", [0, 0], none⟩, ⟨"s", [1, 0], none⟩]).1

/-- Two orthogonal unit records. -/
def dbTwo : List Row :=
  (connLocal.upsert [] "c" [⟨"x", [1, 0], none⟩, ⟨"y", [0, 1], none⟩]).1

/-- The scored entries of `dbRank` against query `[1,0,0]`. -/
def resA : QueryResult := ⟨"a", ⟨1, 1⟩, "\x7b\x7d"⟩

def resB : QueryResult := ⟨"b", ⟨0, 1⟩, "\x7b\x7d"⟩

def resC : QueryResult := ⟨"c", ⟨1, 1⟩, "\x7b\x7d"⟩

/-! ## Claim theorems -/

/-- C2 counterexample: upserting two records on the local backend returns the
Python value `True`, which as a Python integer is `1`, not the count `2` of
records written — the claim that the return value equals the count fails. -/
theorem upsert_count_counterexample :
    pyBoolToInt ((connLocal.upsert [] "c" [⟨"x", [1], none⟩, ⟨"y", [2], none⟩]).2) ≠
      (([⟨"x", [1], none⟩, ⟨"y", [2], none⟩] : List VecInput).length : ℤ) := by
  decide

/-- C2 (amended): every call to `upsert`, in particular on the local backend,
returns the boolean `True` — a fixed success indicator, not the number of
records written. -/
theorem upsert_returns_true (self : VectorDBConnector) (db : List Row)
    (coll : String) (vecs : List VecInput) : (self.upsert db coll vecs).2 = true := by
  by_cases h1 : self.provider = "local" <;>
    by_cases h2 : self.provider = "pinecone" ∧ self.client ≠ Client.pineconeSimulated <;>
      simp [VectorDBConnector.upsert, h1, h2]

/-- C7: a local query against a collection that holds no records (in
particular, one into which nothing was ever upserted) returns the empty
sequence, with no error. -/
theorem query_missing_collection_empty (self : VectorDBConnector)
    (hp : self.provider = "local") (db : List Row) (coll : String)
    (h : ∀ r ∈ db, r.collection ≠ coll)
    (remote : String → List ℚ → ℤ → List QueryResult) (v : List ℚ) (k : ℤ) :
    (self.query db remote coll v k).2 = Except.ok [] := by
  have hscan : scan db coll = [] := scan_eq_nil_of_absent db coll h
  simp [VectorDBConnector.query, hp, queryLocal, hscan, scoreAll, sortDesc,
    List.insertionSort, pySlice, Except.map]

/-- C7 witness: querying the never-populated collection `"nothing"` of
`dbRank` returns the empty sequence. -/
theorem query_missing_collection_empty_witness :
    (connLocal.query dbRank (fun _ _ _ => []) "nothing" [1, 0, 0] 5).2 = Except.ok [] :=
  query_missing_collection_empty connLocal (by decide) dbRank "nothing"
    (by decide) (fun _ _ _ => []) [1, 0, 0] 5

/-- C8: constructing a `"pinecone"` connector with no api key in the config
and none in the environment never fails: whether or not the pinecone library
is importable, the client degrades to simulation mode, every `upsert` leaves
the local state untouched and reports success (`True`), and every `query`
returns the single fixed placeholder result — no exception paths exist. -/
theorem pinecone_simulation_fallback (config : Config) (env : Env)
    (h1 : pyTruthy config.api_key = false) (h2 : pyTruthy env.PINECONE_API_KEY = false)
    (pineconeInstalled weaviateInstalled : Bool) :
    (mkConnector "pinecone" config env pineconeInstalled weaviateInstalled).client =
      Client.pineconeSimulated ∧
    (∀ (db : List Row) (coll : String) (vecs : List VecInput),
      (mkConnector "pinecone" config env pineconeInstalled weaviateInstalled).upsert
        db coll vecs = (db, true)) ∧
    (∀ (db : List Row) (remote : String → List ℚ → ℤ → List QueryResult)
       (coll : String) (v : List ℚ) (k : ℤ),
      (mkConnector "pinecone" config env pineconeInstalled weaviateInstalled).query
        db remote coll v k = (db, Except.ok [simulatedMatch])) := by
  have hclient :
      initializeClient "pinecone" config env pineconeInstalled weaviateInstalled =
        Client.pineconeSimulated := by
    cases pineconeInstalled <;> simp [initializeClient, pyOr, h1, h2]
  refine ⟨hclient, fun db coll vecs => ?_, fun db remote coll v k => ?_⟩
  · simp [VectorDBConnector.upsert, mkConnector, hclient]
  · simp [VectorDBConnector.query, mkConnector, hclient]

/-- C8 witness: with an empty config and environment, the pinecone connector
is simulated, `upsert` is a successful no-op and `query` returns the
placeholder. -/
theorem pinecone_simulation_fallback_witness :
    (mkConnector "pinecone" cfgNone envNone true true).client = Client.pineconeSimulated ∧
    (∀ (db : List Row) (coll : String) (vecs : List VecInput),
      (mkConnector "pinecone" cfgNone envNone true true).upsert db coll vecs = (db, true)) ∧
    (∀ (db : List Row) (remote : String → List ℚ → ℤ → List QueryResult)
       (coll : String) (v : List ℚ) (k : ℤ),
      (mkConnector "pinecone" cfgNone envNone true true).query db remote coll v k =
        (db, Except.ok [simulatedMatch])) :=
  pinecone_simulation_fallback cfgNone envNone (by decide) (by decide) true true

/-- C9: the float32 blob written by the local `upsert` is four bytes per
stored value, laid out little-endian in input order, and deserializing the
blob during a later query recovers exactly the stored float32 values
(bit-pattern level round trip). -/
theorem float32_blob_roundtrip :
    (∀ ws : List ℕ, (tobytes ws).length = 4 * ws.length) ∧
    (∀ ws : List ℕ, (∀ w ∈ ws, w < 2 ^ 32) → frombuffer (tobytes ws) = ws) := by
  constructor
  · intro ws
    induction ws with
    | nil => rfl
    | cons w t ih =>
      simp [tobytes, word32ToBytesLE, ih]
      omega
  · intro ws h
    induction ws with
    | nil => rfl
    | cons w t ih =>
      have hw : w < 2 ^ 32 := h w (List.mem_cons_self w t)
      have ht := ih (fun x hx => h x (List.mem_cons_of_mem w hx))
      simp only [tobytes, word32ToBytesLE, List.cons_append, List.nil_append, frombuffer, ht]
      congr 1
      omega

/-- C9 witness: the blob of the two float32 bit patterns `0x3f800000`
(`1.0f`) and `0` is 8 bytes and round-trips. -/
theorem float32_blob_roundtrip_witness :
    (tobytes [1065353216, 0]).length = 4 * ([1065353216, 0] : List ℕ).length ∧
    frombuffer (tobytes [1065353216, 0]) = [1065353216, 0] :=
  ⟨float32_blob_roundtrip.1 [1065353216, 0],
   float32_blob_roundtrip.2 [1065353216, 0] (by decide)⟩

/-- C10: `query` never modifies the store — for every connector, state,
collection and query vector, the state coming out of `query` is exactly the
state that went in. -/
theorem query_is_readonly (self : VectorDBConnector) (db : List Row)
    (remote : String → List ℚ → ℤ → List QueryResult)
    (coll : String) (v : List ℚ) (k : ℤ) :
    (self.query db remote coll v k).1 = db := by
  by_cases h1 : self.provider = "local" <;>
    by_cases h2 : self.provider = "pinecone" ∧ self.client ≠ Client.pineconeSimulated <;>
      simp [VectorDBConnector.query, h1, h2]

theorem dims_of_scoreAll_ok {q : List ℚ} {rows : List Row} {scored : List QueryResult}
    (h : scoreAll q rows = Except.ok scored) : ∀ r ∈ rows, r.values.length = q.length := by
  by_contra hc
  push_neg at hc
  rw [scoreAll_error_of_mismatch q rows hc] at h
  cases h

theorem scored_eq_of_scoreAll_ok {q : List ℚ} {rows : List Row} {scored : List QueryResult}
    (h : scoreAll q rows = Except.ok scored) : scored = rows.map (mkResult q) := by
  rw [scoreAll_ok_of_dims q rows (dims_of_scoreAll_ok h)] at h
  exact (Except.ok.inj h).symm

/-- C1 counterexample: the collection of `dbMismatch` holds one record of
dimension 3; querying it with a vector of dimension 2 raises the `np.dot`
shape error for the whole query instead of skipping the record and
succeeding. -/
theorem query_mismatch_counterexample :
    queryLocal dbMismatch "c" [1, 2] 5 = Except.error "shapes not aligned" := by
  norm_num [queryLocal, dbMismatch, connLocal, mkConnector, initializeClient, cfgNone, envNone,
    VectorDBConnector.upsert, upsertLocal, putRow, scan, scoreAll, scoreRow, dumpsMetadata,
    sortDesc, pySlice, List.insertionSort, List.orderedInsert, resBefore, Score.flt, Score.skey,
    dotList, sumSq, Except.map, bind, Except.bind, pure, Except.pure]

/-- C1 (amended): a stored record whose vector length differs from the query
vector's aborts the whole local query with an error (it is not skipped); when
every scanned record has the query's length, the query succeeds even if some
vector has zero magnitude — with `top_k` at least the collection size, every
scanned record, zero-magnitude ones included, appears in the results. -/
theorem query_mismatch_raises_zero_magnitude_kept :
    (∀ (rows : List Row) (coll : String) (q : List ℚ) (k : ℤ),
      (∃ r ∈ scan rows coll, r.values.length ≠ q.length) →
      queryLocal rows coll q k = Except.error "shapes not aligned") ∧
    (∀ (rows : List Row) (coll : String) (q : List ℚ) (k : ℤ),
      (∀ r ∈ scan rows coll, r.values.length = q.length) →
      ∃ res, queryLocal rows coll q k = Except.ok res ∧
        (((scan rows coll).length : ℤ) ≤ k →
          res.Perm ((scan rows coll).map (mkResult q)))) := by
  constructor
  · intro rows coll q k h
    simp [queryLocal, scoreAll_error_of_mismatch q (scan rows coll) h, Except.map]
  · intro rows coll q k h
    refine ⟨pySlice (sortDesc ((scan rows coll).map (mkResult q))) k, ?_, ?_⟩
    · simp [queryLocal, scoreAll_ok_of_dims q (scan rows coll) h, Except.map]
    · intro hk
      have hk0 : (0 : ℤ) ≤ k := le_trans (Int.ofNat_nonneg _) hk
      have hlen : (sortDesc ((scan rows coll).map (mkResult q))).length ≤ k.toNat := by
        rw [sortDesc, List.length_insertionSort, List.length_map]
        exact (Int.le_toNat hk0).mpr hk
      rw [pySlice, if_pos hk0, List.take_of_length_le hlen]
      exact List.perm_insertionSort resBefore _

/-- C1 witness: the dimension-mismatch query on `dbMismatch` errors, and the
query on `dbZero` (whose record `r` has zero magnitude) succeeds with both
records present in the results. -/
theorem query_mismatch_raises_zero_magnitude_kept_witness :
    queryLocal dbMismatch "c" [1, 2] 5 = Except.error "shapes not aligned" ∧
    ∃ res, queryLocal dbZero "z" [1, 0] 5 = Except.ok res ∧
      (((scan dbZero "z").length : ℤ) ≤ 5 →
        res.Perm ((scan dbZero "z").map (mkResult [1, 0]))) :=
  ⟨query_mismatch_raises_zero_magnitude_kept.1 dbMismatch "c" [1, 2] 5 (by decide),
   query_mismatch_raises_zero_magnitude_kept.2 dbZero "z" [1, 0] 5 (by decide)⟩

/-- C3 counterexample: for `top_k = -1 ≤ 0` over a two-record collection the
local query returns one entry, not the empty sequence the claim requires for
every `top_k ≤ 0`. -/
theorem query_negative_top_k_counterexample :
    (-1 : ℤ) ≤ 0 ∧ queryLocal dbTwo "c" [1, 0] (-1) ≠ Except.ok [] := by
  have hval : queryLocal dbTwo "c" [1, 0] (-1) = Except.ok [⟨"x", ⟨1, 1⟩, "\x7b\x7d"⟩] := by
    norm_num [queryLocal, dbTwo, connLocal, mkConnector, initializeClient, cfgNone, envNone,
      VectorDBConnector.upsert, upsertLocal, putRow, scan, scoreAll, scoreRow, dumpsMetadata,
      sortDesc, pySlice, List.insertionSort, List.orderedInsert, resBefore, Score.flt, Score.skey,
      dotList, sumSq, Except.map, bind, Except.bind, pure, Except.pure]
  refine ⟨by decide, ?_⟩
  rw [hval]
  simp

/-- C3 (amended): the local query returns `results[:top_k]` of the sorted
scored entries with Python slice semantics: for `top_k ≥ 0` the first `top_k`
entries (fewer when the collection has fewer valid entries), so `top_k = 0`
returns the empty sequence, but a negative `top_k` returns all but the last
`|top_k|` entries rather than the empty sequence. -/
theorem query_top_k_slice (rows : List Row) (coll : String) (q : List ℚ) (k : ℤ)
    (scored : List QueryResult)
    (hs : scoreAll q (scan rows coll) = Except.ok scored) :
    queryLocal rows coll q k = Except.ok (pySlice (sortDesc scored) k) ∧
    (0 ≤ k → pySlice (sortDesc scored) k = (sortDesc scored).take k.toNat ∧
      (pySlice (sortDesc scored) k).length = min k.toNat scored.length) ∧
    (k < 0 → (pySlice (sortDesc scored) k).length = scored.length - (-k).toNat) ∧
    (k = 0 → pySlice (sortDesc scored) k = []) := by
  have hlen : (sortDesc scored).length = scored.length := by
    rw [sortDesc, List.length_insertionSort]
  refine ⟨?_, fun hk => ⟨?_, ?_⟩, fun hk => ?_, fun hk => ?_⟩
  · simp [queryLocal, hs, Except.map]
  · rw [pySlice, if_pos hk]
  · rw [pySlice, if_pos hk, List.length_take, hlen]
  · rw [pySlice, if_neg (not_le.mpr hk), List.length_take, hlen, min_eq_left (Nat.sub_le _ _)]
  · subst hk
    rw [pySlice, if_pos le_rfl]
    simp

/-- C3 witness: instantiated on `dbTwo` with `top_k = -1`: the slice keeps
`2 - 1 = 1` entry. -/
theorem query_top_k_slice_witness :
    queryLocal dbTwo "c" [1, 0] (-1) =
      Except.ok (pySlice (sortDesc [⟨"x", ⟨1, 1⟩, "\x7b\x7d"⟩, ⟨"y", ⟨0, 1⟩, "\x7b\x7d"⟩]) (-1)) ∧
    ((0 : ℤ) ≤ -1 →
      pySlice (sortDesc [⟨"x", ⟨1, 1⟩, "\x7b\x7d"⟩, ⟨"y", ⟨0, 1⟩, "\x7b\x7d"⟩]) (-1) =
        (sortDesc [⟨"x", ⟨1, 1⟩, "\x7b\x7d"⟩, ⟨"y", ⟨0, 1⟩, "\x7b\x7d"⟩]).take (-1 : ℤ).toNat ∧
      (pySlice (sortDesc [⟨"x", ⟨1, 1⟩, "\x7b\x7d"⟩, ⟨"y", ⟨0, 1⟩, "\x7b\x7d"⟩]) (-1)).length =
        min (-1 : ℤ).toNat 2) ∧
    ((-1 : ℤ) < 0 →
      (pySlice (sortDesc [⟨"x", ⟨1, 1⟩, "\x7b\x7d"⟩, ⟨"y", ⟨0, 1⟩, "\x7b\x7d"⟩]) (-1)).length =
        2 - (-(-1) : ℤ).toNat) ∧
    ((-1 : ℤ) = 0 →
      pySlice (sortDesc [⟨"x", ⟨1, 1⟩, "\x7b\x7d"⟩, ⟨"y", ⟨0, 1⟩, "\x7b\x7d"⟩]) (-1) = []) :=
  query_top_k_slice dbTwo "c" [1, 0] (-1) [⟨"x", ⟨1, 1⟩, "\x7b\x7d"⟩, ⟨"y", ⟨0, 1⟩, "\x7b\x7d"⟩]
    (by norm_num [dbTwo, connLocal, mkConnector, initializeClient, cfgNone, envNone,
      VectorDBConnector.upsert, upsertLocal, putRow, scan, scoreAll, scoreRow, dumpsMetadata,
      dotList, sumSq, bind, Except.bind, pure, Except.pure])

/-- C5: local query results are sorted by score descending with the stable
tie-break of the source's sort — ties keep their original scan order — before
truncation to `top_k`: (1) for non-degenerate vectors the sorted scored list
is descending under `resBefore`; (2) any two scored entries whose first is
not strictly below the second (in particular, any tied pair) keep their scan
order through the sort; (3) concretely, for stored `a=[1,0,0]`, `b=[0,1,0]`,
`c=[1,0,0]` and query `[1,0,0]` with `top_k=3` the result is `a, c, b` with
scores `1.0, 1.0, 0.0` — the tied `a` and `c` in scan order. -/
theorem query_sorted_and_stable :
    (∀ (rows : List Row) (coll : String) (q : List ℚ) (k : ℤ)
       (scored : List QueryResult),
      scoreAll q (scan rows coll) = Except.ok scored →
      sumSq q ≠ 0 → (∀ r ∈ scan rows coll, sumSq r.values ≠ 0) →
      queryLocal rows coll q k = Except.ok (pySlice (sortDesc scored) k) ∧
        (sortDesc scored).Sorted resBefore) ∧
    (∀ (x y : QueryResult) (scored : List QueryResult),
      [x, y].Sublist scored → resBefore x y → [x, y].Sublist (sortDesc scored)) ∧
    (queryLocal dbRank "col" [1, 0, 0] 3 = Except.ok [resA, resC, resB] ∧
      resA.score.eqRat 1 ∧ resC.score.eqRat 1 ∧ resB.score.eqRat 0) := by
  refine ⟨?_, ?_, ?_, ?_, ?_, ?_⟩
  · intro rows coll q k scored hs hq hr
    refine ⟨by simp [queryLocal, hs, Except.map], ?_⟩
    refine sorted_sortDesc_of_nonNaN scored (fun y hy => ?_)
    rw [scored_eq_of_scoreAll_ok hs] at hy
    rcases List.mem_map.mp hy with ⟨r, hrm, rfl⟩
    exact mul_ne_zero hq (hr r hrm)
  · intro x y scored hsub hxy
    exact List.pair_sublist_insertionSort hxy hsub
  · norm_num [queryLocal, dbRank, connLocal, mkConnector, initializeClient, cfgNone, envNone,
      VectorDBConnector.upsert, upsertLocal, putRow, scan, scoreAll, scoreRow, dumpsMetadata,
      sortDesc, pySlice, List.insertionSort, List.orderedInsert, resBefore, Score.flt, Score.skey,
      dotList, sumSq, Except.map, bind, Except.bind, pure, Except.pure, resA, resB, resC]
  · norm_num [resA, Score.eqRat]
  · norm_num [resC, Score.eqRat]
  · norm_num [resB, Score.eqRat]

/-- C5 witness: instantiated on `dbRank` with query `[1,0,0]`, `top_k = 3`:
the sorted scored list is descending, the tied pair `a, c` keeps scan order,
and the concrete ranking is `a, c, b`. -/
theorem query_sorted_and_stable_witness :
    (queryLocal dbRank "col" [1, 0, 0] 3 =
        Except.ok (pySlice (sortDesc [resA, resB, resC]) 3) ∧
      (sortDesc [resA, resB, resC]).Sorted resBefore) ∧
    [resA, resC].Sublist (sortDesc [resA, resB, resC]) ∧
    queryLocal dbRank "col" [1, 0, 0] 3 = Except.ok [resA, resC, resB] :=
  ⟨query_sorted_and_stable.1 dbRank "col" [1, 0, 0] 3 [resA, resB, resC]
      (by norm_num [dbRank, connLocal, mkConnector, initializeClient, cfgNone, envNone,
        VectorDBConnector.upsert, upsertLocal, putRow, scan, scoreAll, scoreRow, dumpsMetadata,
        dotList, sumSq, bind, Except.bind, pure, Except.pure, resA, resB, resC])
      (by norm_num [sumSq])
      (by
        have hscan : scan dbRank "col" =
            [⟨"col", "a", [1, 0, 0], "\x7b\x7d"⟩, ⟨"col", "b", [0, 1, 0], "\x7b\x7d"⟩,
             ⟨"col", "c", [1, 0, 0], "\x7b\x7d"⟩] := by
          simp [dbRank, connLocal, mkConnector, initializeClient, cfgNone, envNone,
            VectorDBConnector.upsert, upsertLocal, putRow, scan, dumpsMetadata]
        rw [hscan]
        intro r hr
        simp only [List.mem_cons, List.not_mem_nil, or_false] at hr
        rcases hr with rfl | rfl | rfl <;> norm_num [sumSq]),
   query_sorted_and_stable.2.1 resA resC [resA, resB, resC]
      (List.Sublist.cons₂ resA (List.Sublist.cons resB (List.Sublist.cons₂ resC
        List.Sublist.slnil)))
      (by norm_num [resBefore, Score.flt, Score.skey, resA, resC]),
   query_sorted_and_stable.2.2.1⟩

/-- C6: on the local backend, upserting a record whose `(collection, id)`
identity already exists fully replaces the prior values and metadata: after
upserting `v1` and then `v2` with the same id into the same collection, the
collection's record count is unchanged, the row holding `v2`'s values and
metadata is present, and every row with that identity holds exactly `v2`'s
values and metadata (last-write-wins). -/
theorem upsert_last_write_wins (self : VectorDBConnector) (hp : self.provider = "local")
    (db : List Row) (hnd : nodupKeys db) (coll : String) (v1 v2 : VecInput)
    (hid : v1.id = v2.id) :
    (scan (self.upsert (self.upsert db coll [v1]).1 coll [v2]).1 coll).length =
      (scan (self.upsert db coll [v1]).1 coll).length ∧
    (⟨coll, v2.id, v2.values, dumpsMetadata v2.metadata⟩ : Row) ∈
      (self.upsert (self.upsert db coll [v1]).1 coll [v2]).1 ∧
    ∀ x ∈ (self.upsert (self.upsert db coll [v1]).1 coll [v2]).1,
      rowKey x = (coll, v2.id) →
        x = ⟨coll, v2.id, v2.values, dumpsMetadata v2.metadata⟩ := by
  have hu : ∀ (d : List Row) (v : VecInput),
      (self.upsert d coll [v]).1 = putRow d ⟨coll, v.id, v.values, dumpsMetadata v.metadata⟩ := by
    intro d v
    simp [VectorDBConnector.upsert, hp, upsertLocal]
  rw [hu, hu]
  have hkey : rowKey (⟨coll, v1.id, v1.values, dumpsMetadata v1.metadata⟩ : Row) =
      rowKey (⟨coll, v2.id, v2.values, dumpsMetadata v2.metadata⟩ : Row) := by
    simp [rowKey, hid]
  refine ⟨?_, mem_putRow_self _ _, fun x hx hk => ?_⟩
  · rw [length_scan_eq_count, length_scan_eq_count,
      map_collection_putRow_of_mem _ _ ⟨_, mem_putRow_self db _, hkey⟩]
  · exact eq_of_mem_putRow_key (nodupKeys_putRow db _ hnd) hx hk

/-- C6 witness: upserting id `"x"` twice into collection `"c"` of an empty
store, first with values `[1]` then with `[2, 3]`, leaves one record holding
`[2, 3]`. -/
theorem upsert_last_write_wins_witness :
    (scan (connLocal.upsert (connLocal.upsert [] "c" [⟨"x", [1], none⟩]).1 "c"
        [⟨"x", [2, 3], none⟩]).1 "c").length =
      (scan (connLocal.upsert [] "c" [⟨"x", [1], none⟩]).1 "c").length ∧
    (⟨"c", "x", [2, 3], dumpsMetadata none⟩ : Row) ∈
      (connLocal.upsert (connLocal.upsert [] "c" [⟨"x", [1], none⟩]).1 "c"
        [⟨"x", [2, 3], none⟩]).1 ∧
    ∀ x ∈ (connLocal.upsert (connLocal.upsert [] "c" [⟨"x", [1], none⟩]).1 "c"
        [⟨"x", [2, 3], none⟩]).1,
      rowKey x = ("c", "x") → x = ⟨"c", "x", [2, 3], dumpsMetadata none⟩ :=
  upsert_last_write_wins connLocal (by decide) [] (by simp [nodupKeys]) "c"
    ⟨"x", [1], none⟩ ⟨"x", [2, 3], none⟩ (by decide)

end VectorDB
